import Mathlib

set_option maxRecDepth 8000

/-!
Verification of the single-header memory-mapped-file library (dmmap.h /
deza_mmap.h).  The C code is shallowly embedded: the `DmmapFile` struct
becomes a Lean structure, and each platform branch of `dmmap_file_open` /
`dmmap_file_close` becomes a Lean function over an explicit OS world
(a small file system, the set of active mappings, and failure-injection
flags that make every error branch of the C code reachable).  Each embedded
call also returns the list of OS calls it performed, so resource-release
ordering and the arguments passed to `mmap` / `CreateFileMapping` are
provable facts.
-/

namespace Mmap

/-- Embedding of the C struct `DmmapFile` (src/dmmap.h lines 109-114,
src/deza_mmap.h lines 48-53): `data` is `void*` (`none` = NULL), `size` is
`size_t`, `fd` is `uintptr_t` (POSIX file descriptor or Windows mapping
handle). -/
structure DmmapFile where
  data : Option Nat
  size : Nat
  fd : Nat
deriving Repr, DecidableEq

/-- The fully zeroed handle, i.e. the C initializer `DmmapFile result = {0}`. -/
def zeroHandle : DmmapFile := ⟨none, 0, 0⟩

/-! POSIX constants (Linux `<fcntl.h>`, `<sys/mman.h>` values). -/

def O_RDONLY : Nat := 0
def O_RDWR : Nat := 2
def PROT_READ : Nat := 1
def PROT_WRITE : Nat := 2
def MAP_SHARED : Nat := 1

/-! Windows constants (`<windows.h>` values). -/

def GENERIC_READ : Nat := 2147483648
def GENERIC_WRITE : Nat := 1073741824
def PAGE_READONLY : Nat := 2
def PAGE_READWRITE : Nat := 4
def FILE_MAP_READ : Nat := 4
def FILE_MAP_WRITE : Nat := 2
def OPEN_EXISTING : Nat := 3
def FILE_ATTRIBUTE_NORMAL : Nat := 128
def INVALID_FILE_SIZE : Nat := 4294967295

/-- An active POSIX memory mapping: base address, length, protection,
flags, backing file descriptor and file offset, exactly the arguments the
code passed to `mmap`. -/
structure Mapping where
  addr : Nat
  len : Nat
  prot : Nat
  flags : Nat
  fd : Nat
  offset : Nat
deriving Repr, DecidableEq

/-- OS model: the POSIX world.  `files` is the file system (readable,
writable regular files as path/bytes pairs); `maps` the active mappings;
the three flags inject a transient failure into the corresponding system
call, making every error branch of the C code reachable (e.g. `fstat`
failing because the file vanished, `mmap` failing from resource
exhaustion). -/
structure PosixWorld where
  files : List (String × List Nat)
  maps : List Mapping
  openFail : Bool
  fstatFail : Bool
  mmapFail : Bool
deriving Repr, DecidableEq

/-- One OS call performed by the POSIX branch, with the arguments passed. -/
inductive PosixEvent where
  | openEv (filename : String) (flags : Nat)
  | fstatEv (fd : Nat)
  | mmapEv (len prot flags fd offset : Nat)
  | closeEv (fd : Nat)
  | munmapEv (addr len : Nat)
deriving Repr, DecidableEq

/-- Index of a path in the file-system list (first match). -/
def pathIndex : List (String × List Nat) → String → Option Nat
  | [], _ => none
  | f :: fs, filename =>
    if f.1 = filename then some 0 else (pathIndex fs filename).map (· + 1)

/-- File descriptors start at 3 (0,1,2 are the standard streams). -/
def fdBase : Nat := 3

/-- Deterministic address chosen by the model for the mapping of `fd`. -/
def addrOf (fd : Nat) : Nat := 4096 * (fd + 1)

/-- The bytes of the file underlying descriptor `fd`, when `fd` is open. -/
def fileAt (w : PosixWorld) (fd : Nat) : Option (List Nat) :=
  if fdBase ≤ fd then (w.files[fd - fdBase]?).map (·.2) else none

/-- OS model of `open(2)`: returns a descriptor for an existing file,
`none` for the C return value -1. -/
def sys_open (w : PosixWorld) (filename : String) (flags : Nat) : Option Nat :=
  if w.openFail then none else (pathIndex w.files filename).map (· + fdBase)

/-- OS model of `fstat(2)`: returns `st_size`, `none` for the C return
value -1. -/
def sys_fstat (w : PosixWorld) (fd : Nat) : Option Nat :=
  if w.fstatFail then none else (fileAt w fd).map (·.length)

/-- OS model of `mmap(2)`: per POSIX it fails when `len` is zero (EINVAL)
or the descriptor is invalid (EBADF); on success it records the mapping
with exactly the protection, flags and offset it was given and returns the
base address (`none` models MAP_FAILED). -/
def sys_mmap (w : PosixWorld) (len prot flags fd offset : Nat) :
    Option Nat × PosixWorld :=
  if w.mmapFail ∨ len = 0 ∨ (fileAt w fd).isNone then (none, w)
  else (some (addrOf fd),
    { w with maps := ⟨addrOf fd, len, prot, flags, fd, offset⟩ :: w.maps })

/-- OS model of `munmap(2)`: removes the mapping based at `addr`. -/
def sys_munmap (w : PosixWorld) (addr len : Nat) : PosixWorld :=
  { w with maps := w.maps.filter (fun m => m.addr != addr) }

/-- The active mapping based at address `addr`, if any. -/
def findMap (w : PosixWorld) (addr : Nat) : Option Mapping :=
  w.maps.find? (fun m => m.addr == addr)

/-- Replace the bytes of the file at index `i` by `g` applied to them. -/
def updBytes (i : Nat) (g : List Nat → List Nat) :
    List (String × List Nat) → List (String × List Nat)
  | [] => []
  | f :: fs =>
    match i with
    | 0 => (f.1, g f.2) :: fs
    | j + 1 => f :: updBytes j g fs

/-- OS model of reading byte `off` through a mapped region based at
`addr`: defined when an active mapping covers the offset with read
permission; a shared file mapping reads through to the current bytes of
the backing file. -/
def readByte (w : PosixWorld) (addr off : Nat) : Option Nat :=
  match findMap w addr with
  | none => none
  | some m =>
    if off < m.len ∧ m.prot &&& PROT_READ ≠ 0 then
      match fileAt w m.fd with
      | none => none
      | some bytes => bytes[m.offset + off]?
    else none

/-- OS model of storing byte `b` at offset `off` through a mapped region
based at `addr`: when an active mapping covers the offset with write
permission and was created MAP_SHARED, the store is carried through to the
backing file; otherwise the file is unchanged (a MAP_PRIVATE store would
only dirty a private page). -/
def writeByte (w : PosixWorld) (addr off b : Nat) : PosixWorld :=
  match findMap w addr with
  | none => w
  | some m =>
    if off < m.len ∧ m.prot &&& PROT_WRITE ≠ 0 ∧ m.flags &&& MAP_SHARED ≠ 0 then
      { w with files := updBytes (m.fd - fdBase) (fun bs => bs.set (m.offset + off) b) w.files }
    else w

/-- An active Windows view: base address, length, the desired access
passed to `MapViewOfFile`, and the file-mapping handle it came from. -/
structure WinMapping where
  addr : Nat
  len : Nat
  access : Nat
  map : Nat
deriving Repr, DecidableEq

/-- OS model: the Windows world.  `files` holds path/size pairs (sizes may
exceed 2^32, which is what makes the `GetFileSize` truncation statable);
the flags inject failures into the corresponding API calls.  A true
`getFileSizeFail` makes `GetFileSize` report its in-band failure value
INVALID_FILE_SIZE, which the C code never checks. -/
structure WinWorld where
  files : List (String × Nat)
  maps : List WinMapping
  createFileFail : Bool
  getFileSizeFail : Bool
  createFileMappingFail : Bool
  mapViewFail : Bool
deriving Repr, DecidableEq

/-- One OS call performed by the Windows branch, with the arguments passed. -/
inductive WinEvent where
  | createFileEv (filename : String) (access share creation attrs : Nat)
  | getFileSizeEv (h : Nat)
  | createFileMappingEv (h protect sizeHigh sizeLow : Nat)
  | mapViewEv (map access offHigh offLow len : Nat)
  | closeHandleEv (h : Nat)
  | unmapViewEv (addr : Nat)
deriving Repr, DecidableEq

/-- Index of a path in the Windows file-system list (first match). -/
def pathIndexW : List (String × Nat) → String → Option Nat
  | [], _ => none
  | f :: fs, filename =>
    if f.1 = filename then some 0 else (pathIndexW fs filename).map (· + 1)

/-- Windows file handles start at 100 in the model. -/
def hBase : Nat := 100

/-- The model's file-mapping handle for file handle `h`. -/
def mapHandleOf (h : Nat) : Nat := h + 1000

/-- Deterministic view address chosen by the model for mapping handle `m`. -/
def viewAddrOf (m : Nat) : Nat := 65536 * (m + 1)

/-- The byte size of the file underlying handle `h`, when `h` is open. -/
def fileSizeAt (w : WinWorld) (h : Nat) : Option Nat :=
  if hBase ≤ h then (w.files[h - hBase]?).map (·.2) else none

/-- OS model of `CreateFileA` with OPEN_EXISTING: a handle for an existing
file, `none` for INVALID_HANDLE_VALUE. -/
def sys_CreateFileA (w : WinWorld) (filename : String) (access : Nat) : Option Nat :=
  if w.createFileFail then none else (pathIndexW w.files filename).map (· + hBase)

/-- OS model of `GetFileSize(h, NULL)`: returns the low 32 bits of the
file size (the high DWORD is discarded because the caller passed NULL),
and the in-band value INVALID_FILE_SIZE when the call fails. -/
def sys_GetFileSize (w : WinWorld) (h : Nat) : Nat :=
  if w.getFileSizeFail then INVALID_FILE_SIZE
  else
    match fileSizeAt w h with
    | some sz => sz % 4294967296
    | none => INVALID_FILE_SIZE

/-- OS model of `CreateFileMapping(h, NULL, protect, 0, maxLow, NULL)`:
fails (NULL) on an invalid handle, a requested size of zero (for a
zero-size file Windows returns ERROR_FILE_INVALID), or injected failure;
otherwise returns a fresh mapping-object handle. -/
def sys_CreateFileMapping (w : WinWorld) (h protect maxLow : Nat) : Option Nat :=
  if w.createFileMappingFail ∨ maxLow = 0 ∨ (fileSizeAt w h).isNone then none
  else some (mapHandleOf h)

/-- OS model of `MapViewOfFile(m, access, 0, 0, len)`: on success records
the view and returns its base address; `none` models NULL. -/
def sys_MapViewOfFile (w : WinWorld) (m access len : Nat) : Option Nat × WinWorld :=
  if w.mapViewFail then (none, w)
  else (some (viewAddrOf m),
    { w with maps := ⟨viewAddrOf m, len, access, m⟩ :: w.maps })

/-- OS model of `UnmapViewOfFile(addr)`: removes the view based at `addr`. -/
def sys_UnmapViewOfFile (w : WinWorld) (addr : Nat) : WinWorld :=
  { w with maps := w.maps.filter (fun m => m.addr != addr) }

/-- The active Windows view based at address `addr`, if any. -/
def findMapW (w : WinWorld) (addr : Nat) : Option WinMapping :=
  w.maps.find? (fun m => m.addr == addr)

namespace Dmmap

namespace Posix

/-- Embedding of `dmmap_file_open`, POSIX branch of src/dmmap.h lines
212-239: open, fstat (closing the fd on failure), mmap of the whole file
with MAP_SHARED (closing the fd on failure), then populate the handle.
Returns the handle, the resulting world, and the OS calls performed. -/
def dmmap_file_open (w : PosixWorld) (filename : String) (read_only : Int) :
    DmmapFile × PosixWorld × List PosixEvent :=
  let result : DmmapFile := ⟨none, 0, 0⟩
  let flags := if read_only ≠ 0 then O_RDONLY else O_RDWR
  match sys_open w filename flags with
  | none => (result, w, [.openEv filename flags])
  | some fd =>
    match sys_fstat w fd with
    | none => (result, w, [.openEv filename flags, .fstatEv fd, .closeEv fd])
    | some st_size =>
      let prot := if read_only ≠ 0 then PROT_READ else PROT_READ ||| PROT_WRITE
      match sys_mmap w st_size prot MAP_SHARED fd 0 with
      | (none, w2) =>
        (result, w2,
         [.openEv filename flags, .fstatEv fd,
          .mmapEv st_size prot MAP_SHARED fd 0, .closeEv fd])
      | (some data, w2) =>
        (⟨some data, st_size, fd⟩, w2,
         [.openEv filename flags, .fstatEv fd,
          .mmapEv st_size prot MAP_SHARED fd 0])

/-- Embedding of `dmmap_file_close`, POSIX branch of src/dmmap.h lines
241-251: if `data` is non-null, munmap the region, close the descriptor
and zero every field; otherwise do nothing. -/
def dmmap_file_close (w : PosixWorld) (file : DmmapFile) :
    DmmapFile × PosixWorld × List PosixEvent :=
  match file.data with
  | some addr =>
    (⟨none, 0, 0⟩, sys_munmap w addr file.size,
     [.munmapEv addr file.size, .closeEv file.fd])
  | none => (file, w, [])

end Posix

namespace Win

/-- Embedding of `dmmap_file_open`, Windows branch of src/dmmap.h lines
160-192: CreateFileA, GetFileSize (result unchecked), CreateFileMapping,
MapViewOfFile, then populate the handle, storing the mapping-object handle
in `fd` and closing the file handle. -/
def dmmap_file_open (w : WinWorld) (filename : String) (read_only : Int) :
    DmmapFile × WinWorld × List WinEvent :=
  let result : DmmapFile := ⟨none, 0, 0⟩
  let access := if read_only ≠ 0 then GENERIC_READ else GENERIC_READ ||| GENERIC_WRITE
  let protect := if read_only ≠ 0 then PAGE_READONLY else PAGE_READWRITE
  let map_access := if read_only ≠ 0 then FILE_MAP_READ else FILE_MAP_WRITE
  match sys_CreateFileA w filename access with
  | none => (result, w, [.createFileEv filename access 0 OPEN_EXISTING FILE_ATTRIBUTE_NORMAL])
  | some file =>
    let fileSize := sys_GetFileSize w file
    match sys_CreateFileMapping w file protect fileSize with
    | none =>
      (result, w,
       [.createFileEv filename access 0 OPEN_EXISTING FILE_ATTRIBUTE_NORMAL,
        .getFileSizeEv file, .createFileMappingEv file protect 0 fileSize,
        .closeHandleEv file])
    | some map =>
      match sys_MapViewOfFile w map map_access fileSize with
      | (none, w2) =>
        (result, w2,
         [.createFileEv filename access 0 OPEN_EXISTING FILE_ATTRIBUTE_NORMAL,
          .getFileSizeEv file, .createFileMappingEv file protect 0 fileSize,
          .mapViewEv map map_access 0 0 fileSize,
          .closeHandleEv map, .closeHandleEv file])
      | (some data, w2) =>
        (⟨some data, fileSize, map⟩, w2,
         [.createFileEv filename access 0 OPEN_EXISTING FILE_ATTRIBUTE_NORMAL,
          .getFileSizeEv file, .createFileMappingEv file protect 0 fileSize,
          .mapViewEv map map_access 0 0 fileSize,
          .closeHandleEv file])

/-- Embedding of `dmmap_file_close`, Windows branch of src/dmmap.h lines
194-204: if `data` is non-null, UnmapViewOfFile, CloseHandle on the stored
mapping handle, and zero every field; otherwise do nothing. -/
def dmmap_file_close (w : WinWorld) (file : DmmapFile) :
    DmmapFile × WinWorld × List WinEvent :=
  match file.data with
  | some addr =>
    (⟨none, 0, 0⟩, sys_UnmapViewOfFile w addr,
     [.unmapViewEv addr, .closeHandleEv file.fd])
  | none => (file, w, [])

end Win

end Dmmap

namespace DezaMmap

namespace Posix

/-- Embedding of `dmmap_file_open`, POSIX branch of src/deza_mmap.h lines
120-147 (the second header ships the same function). -/
def dmmap_file_open (w : PosixWorld) (filename : String) (read_only : Int) :
    DmmapFile × PosixWorld × List PosixEvent :=
  let result : DmmapFile := ⟨none, 0, 0⟩
  let flags := if read_only ≠ 0 then O_RDONLY else O_RDWR
  match sys_open w filename flags with
  | none => (result, w, [.openEv filename flags])
  | some fd =>
    match sys_fstat w fd with
    | none => (result, w, [.openEv filename flags, .fstatEv fd, .closeEv fd])
    | some st_size =>
      let prot := if read_only ≠ 0 then PROT_READ else PROT_READ ||| PROT_WRITE
      match sys_mmap w st_size prot MAP_SHARED fd 0 with
      | (none, w2) =>
        (result, w2,
         [.openEv filename flags, .fstatEv fd,
          .mmapEv st_size prot MAP_SHARED fd 0, .closeEv fd])
      | (some data, w2) =>
        (⟨some data, st_size, fd⟩, w2,
         [.openEv filename flags, .fstatEv fd,
          .mmapEv st_size prot MAP_SHARED fd 0])

/-- Embedding of `dmmap_file_close`, POSIX branch of src/deza_mmap.h lines
149-158. -/
def dmmap_file_close (w : PosixWorld) (file : DmmapFile) :
    DmmapFile × PosixWorld × List PosixEvent :=
  match file.data with
  | some addr =>
    (⟨none, 0, 0⟩, sys_munmap w addr file.size,
     [.munmapEv addr file.size, .closeEv file.fd])
  | none => (file, w, [])

end Posix

namespace Win

/-- Embedding of `dmmap_file_open`, Windows branch of src/deza_mmap.h
lines 68-100. -/
def dmmap_file_open (w : WinWorld) (filename : String) (read_only : Int) :
    DmmapFile × WinWorld × List WinEvent :=
  let result : DmmapFile := ⟨none, 0, 0⟩
  let access := if read_only ≠ 0 then GENERIC_READ else GENERIC_READ ||| GENERIC_WRITE
  let protect := if read_only ≠ 0 then PAGE_READONLY else PAGE_READWRITE
  let map_access := if read_only ≠ 0 then FILE_MAP_READ else FILE_MAP_WRITE
  match sys_CreateFileA w filename access with
  | none => (result, w, [.createFileEv filename access 0 OPEN_EXISTING FILE_ATTRIBUTE_NORMAL])
  | some file =>
    let fileSize := sys_GetFileSize w file
    match sys_CreateFileMapping w file protect fileSize with
    | none =>
      (result, w,
       [.createFileEv filename access 0 OPEN_EXISTING FILE_ATTRIBUTE_NORMAL,
        .getFileSizeEv file, .createFileMappingEv file protect 0 fileSize,
        .closeHandleEv file])
    | some map =>
      match sys_MapViewOfFile w map map_access fileSize with
      | (none, w2) =>
        (result, w2,
         [.createFileEv filename access 0 OPEN_EXISTING FILE_ATTRIBUTE_NORMAL,
          .getFileSizeEv file, .createFileMappingEv file protect 0 fileSize,
          .mapViewEv map map_access 0 0 fileSize,
          .closeHandleEv map, .closeHandleEv file])
      | (some data, w2) =>
        (⟨some data, fileSize, map⟩, w2,
         [.createFileEv filename access 0 OPEN_EXISTING FILE_ATTRIBUTE_NORMAL,
          .getFileSizeEv file, .createFileMappingEv file protect 0 fileSize,
          .mapViewEv map map_access 0 0 fileSize,
          .closeHandleEv file])

/-- Embedding of `dmmap_file_close`, Windows branch of src/deza_mmap.h
lines 102-112. -/
def dmmap_file_close (w : WinWorld) (file : DmmapFile) :
    DmmapFile × WinWorld × List WinEvent :=
  match file.data with
  | some addr =>
    (⟨none, 0, 0⟩, sys_UnmapViewOfFile w addr,
     [.unmapViewEv addr, .closeHandleEv file.fd])
  | none => (file, w, [])

end Win

end DezaMmap


/-- The invariant of §3 of the design: a handle with null `data` has zero
`size` and a zero platform handle. -/
def handleInv (h : DmmapFile) : Prop := h.data = none → h.size = 0 ∧ h.fd = 0

/-- A POSIX world with no files, used to instantiate theorems. -/
def emptyPosixWorld : PosixWorld := ⟨[], [], false, false, false⟩

/-- A Windows world with no files, used to instantiate theorems. -/
def emptyWinWorld : WinWorld := ⟨[], [], false, false, false, false⟩

/-- A POSIX world with one two-byte file. -/
def c1World : PosixWorld := ⟨[("a.txt", [104, 105])], [], false, false, false⟩

/-- A POSIX world with one zero-length file. -/
def zeroLenWorld : PosixWorld := ⟨[("empty.dat", [])], [], false, false, false⟩

/-- A POSIX world whose `fstat` call fails (file vanished after open). -/
def c5PosixWorld : PosixWorld := ⟨[("f.bin", List.replicate 100 0)], [], false, true, false⟩

/-- A Windows world whose `GetFileSize` call fails. -/
def c5WinWorld : WinWorld := ⟨[("f.bin", 100)], [], false, true, false, false⟩

/-- A POSIX world with the three-byte file "abc" of the spec's write-through
scenario. -/
def c6World : PosixWorld := ⟨[("abc", [97, 98, 99])], [], false, false, false⟩

/-- A Windows world with one ten-byte file. -/
def c7WinWorld : WinWorld := ⟨[("w.txt", 10)], [], false, false, false, false⟩

/-- A Windows world with one file of 2^32 + 5 bytes. -/
def c9WinWorld : WinWorld := ⟨[("big.bin", 4294967301)], [], false, false, false, false⟩

/-! Helper lemmas about the OS model. -/

/-- Replacing a file's bytes does not move any path in the file system. -/
theorem pathIndex_updBytes (fs : List (String × List Nat)) (i : Nat)
    (g : List Nat → List Nat) (filename : String) :
    pathIndex (updBytes i g fs) filename = pathIndex fs filename := by
  induction fs generalizing i with
  | nil => cases i <;> rfl
  | cons f fs ih =>
    cases i with
    | zero => simp [updBytes, pathIndex]
    | succ j => simp [updBytes, pathIndex, ih]

/-- Reading back the file-system entry whose bytes were replaced. -/
theorem getElem?_updBytes_self (fs : List (String × List Nat)) (i : Nat)
    (g : List Nat → List Nat) :
    (updBytes i g fs)[i]? = (fs[i]?).map (fun p => (p.1, g p.2)) := by
  induction fs generalizing i with
  | nil => cases i <;> rfl
  | cons f fs ih =>
    cases i with
    | zero => simp [updBytes]
    | succ j => simpa [updBytes] using ih j

/-- Filtering out every mapping based at `addr` leaves none to find there. -/
theorem find?_filter_addr (l : List Mapping) (a : Nat) :
    (l.filter (fun m => m.addr != a)).find? (fun m => m.addr == a) = none := by
  rw [List.find?_eq_none]
  intro m hm
  have h := (List.mem_filter.mp hm).2
  simp at h ⊢
  exact h

/-- Windows version of `find?_filter_addr`. -/
theorem find?_filter_addr_w (l : List WinMapping) (a : Nat) :
    (l.filter (fun m => m.addr != a)).find? (fun m => m.addr == a) = none := by
  rw [List.find?_eq_none]
  intro m hm
  have h := (List.mem_filter.mp hm).2
  simp at h ⊢
  exact h

/-- The descriptor assigned by the model `open` sees the file's bytes. -/
theorem fileAt_of_getElem (w : PosixWorld) (i : Nat) (nm : String) (bytes : List Nat)
    (hGet : w.files[i]? = some (nm, bytes)) :
    fileAt w (i + fdBase) = some bytes := by
  have h3 : i + fdBase - fdBase = i := by omega
  simp [fileAt, Nat.le_add_left, h3, hGet]

/-- The handle assigned by the model `CreateFileA` sees the file's size. -/
theorem fileSizeAt_of_getElem (w : WinWorld) (i : Nat) (nm : String) (sz : Nat)
    (hGet : w.files[i]? = some (nm, sz)) :
    fileSizeAt w (i + hBase) = some sz := by
  have h3 : i + hBase - hBase = i := by omega
  simp [fileSizeAt, Nat.le_add_left, h3, hGet]

theorem sys_mmap_none (w : PosixWorld) (len prot flags fd offset : Nat) (w2 : PosixWorld)
    (h : sys_mmap w len prot flags fd offset = (none, w2)) : w2 = w := by
  unfold sys_mmap at h
  split at h
  · simp at h
    exact h.symm
  · simp at h

theorem sys_mmap_some (w : PosixWorld) (len prot flags fd offset a : Nat) (w2 : PosixWorld)
    (h : sys_mmap w len prot flags fd offset = (some a, w2)) :
    a = addrOf fd ∧
      w2 = { w with maps := ⟨addrOf fd, len, prot, flags, fd, offset⟩ :: w.maps } := by
  unfold sys_mmap at h
  split at h
  · simp at h
  · simp at h
    exact ⟨h.1.symm, h.2.symm⟩

theorem sys_MapViewOfFile_none (w : WinWorld) (m access len : Nat) (w2 : WinWorld)
    (h : sys_MapViewOfFile w m access len = (none, w2)) : w2 = w := by
  unfold sys_MapViewOfFile at h
  split at h
  · simp at h
    exact h.symm
  · simp at h

theorem sys_MapViewOfFile_some (w : WinWorld) (m access len a : Nat) (w2 : WinWorld)
    (h : sys_MapViewOfFile w m access len = (some a, w2)) :
    a = viewAddrOf m ∧
      w2 = { w with maps := ⟨viewAddrOf m, len, access, m⟩ :: w.maps } := by
  unfold sys_MapViewOfFile at h
  split at h
  · simp at h
  · simp at h
    exact ⟨h.1.symm, h.2.symm⟩

/-- Full description of a successful POSIX open in the model: normal
operation, an existing non-empty file. -/
theorem posix_open_success (w : PosixWorld) (filename nm : String) (i : Nat)
    (bytes : List Nat) (ro : Int)
    (hOpen : w.openFail = false) (hStat : w.fstatFail = false)
    (hMmap : w.mmapFail = false)
    (hFind : pathIndex w.files filename = some i)
    (hGet : w.files[i]? = some (nm, bytes)) (hNe : bytes ≠ []) :
    Dmmap.Posix.dmmap_file_open w filename ro =
      (⟨some (addrOf (i + fdBase)), bytes.length, i + fdBase⟩,
       { w with maps := ⟨addrOf (i + fdBase), bytes.length,
           if ro ≠ 0 then PROT_READ else PROT_READ ||| PROT_WRITE,
           MAP_SHARED, i + fdBase, 0⟩ :: w.maps },
       [.openEv filename (if ro ≠ 0 then O_RDONLY else O_RDWR),
        .fstatEv (i + fdBase),
        .mmapEv bytes.length (if ro ≠ 0 then PROT_READ else PROT_READ ||| PROT_WRITE)
          MAP_SHARED (i + fdBase) 0]) := by
  have hfa := fileAt_of_getElem w i nm bytes hGet
  have ho : sys_open w filename (if ro ≠ 0 then O_RDONLY else O_RDWR) = some (i + fdBase) := by
    simp [sys_open, hOpen, hFind]
  have hf : sys_fstat w (i + fdBase) = some bytes.length := by
    simp [sys_fstat, hStat, hfa]
  have hm : sys_mmap w bytes.length
      (if ro ≠ 0 then PROT_READ else PROT_READ ||| PROT_WRITE) MAP_SHARED (i + fdBase) 0 =
      (some (addrOf (i + fdBase)),
       { w with maps := ⟨addrOf (i + fdBase), bytes.length,
           if ro ≠ 0 then PROT_READ else PROT_READ ||| PROT_WRITE,
           MAP_SHARED, i + fdBase, 0⟩ :: w.maps }) := by
    simp [sys_mmap, hMmap, hfa, hNe]
  simp only [Dmmap.Posix.dmmap_file_open, ho, hf, hm]

/-- Full description of a successful Windows open in the model: normal
operation, an existing file whose low size DWORD is non-zero. -/
theorem win_open_success (w : WinWorld) (filename nm : String) (i sz : Nat) (ro : Int)
    (hCF : w.createFileFail = false) (hGFS : w.getFileSizeFail = false)
    (hCFM : w.createFileMappingFail = false) (hMV : w.mapViewFail = false)
    (hFind : pathIndexW w.files filename = some i)
    (hGet : w.files[i]? = some (nm, sz)) (hNZ : sz % 4294967296 ≠ 0) :
    Dmmap.Win.dmmap_file_open w filename ro =
      (⟨some (viewAddrOf (mapHandleOf (i + hBase))), sz % 4294967296, mapHandleOf (i + hBase)⟩,
       { w with maps := ⟨viewAddrOf (mapHandleOf (i + hBase)), sz % 4294967296,
           if ro ≠ 0 then FILE_MAP_READ else FILE_MAP_WRITE, mapHandleOf (i + hBase)⟩ :: w.maps },
       [.createFileEv filename (if ro ≠ 0 then GENERIC_READ else GENERIC_READ ||| GENERIC_WRITE)
          0 OPEN_EXISTING FILE_ATTRIBUTE_NORMAL,
        .getFileSizeEv (i + hBase),
        .createFileMappingEv (i + hBase) (if ro ≠ 0 then PAGE_READONLY else PAGE_READWRITE)
          0 (sz % 4294967296),
        .mapViewEv (mapHandleOf (i + hBase)) (if ro ≠ 0 then FILE_MAP_READ else FILE_MAP_WRITE)
          0 0 (sz % 4294967296),
        .closeHandleEv (i + hBase)]) := by
  have hfs := fileSizeAt_of_getElem w i nm sz hGet
  have hc : sys_CreateFileA w filename
      (if ro ≠ 0 then GENERIC_READ else GENERIC_READ ||| GENERIC_WRITE) = some (i + hBase) := by
    simp [sys_CreateFileA, hCF, hFind]
  have hg : sys_GetFileSize w (i + hBase) = sz % 4294967296 := by
    simp [sys_GetFileSize, hGFS, hfs]
  have hcm : sys_CreateFileMapping w (i + hBase)
      (if ro ≠ 0 then PAGE_READONLY else PAGE_READWRITE) (sz % 4294967296) =
      some (mapHandleOf (i + hBase)) := by
    simp [sys_CreateFileMapping, hCFM, hfs, hNZ]
  have hmv : sys_MapViewOfFile w (mapHandleOf (i + hBase))
      (if ro ≠ 0 then FILE_MAP_READ else FILE_MAP_WRITE) (sz % 4294967296) =
      (some (viewAddrOf (mapHandleOf (i + hBase))),
       { w with maps := ⟨viewAddrOf (mapHandleOf (i + hBase)), sz % 4294967296,
           if ro ≠ 0 then FILE_MAP_READ else FILE_MAP_WRITE, mapHandleOf (i + hBase)⟩ :: w.maps }) := by
    simp [sys_MapViewOfFile, hMV]
  simp only [Dmmap.Win.dmmap_file_open, hc, hg, hcm, hmv]


/-- Every control path of the POSIX open either returns the zeroed handle
and leaves the world unchanged, or returns a handle whose `data` points at
an active mapping. -/
theorem posix_open_cases (w : PosixWorld) (fn : String) (ro : Int) :
    ((Dmmap.Posix.dmmap_file_open w fn ro).1 = zeroHandle ∧
     (Dmmap.Posix.dmmap_file_open w fn ro).2.1 = w) ∨
    (∃ a, (Dmmap.Posix.dmmap_file_open w fn ro).1.data = some a ∧
       (findMap (Dmmap.Posix.dmmap_file_open w fn ro).2.1 a).isSome) := by
  unfold Dmmap.Posix.dmmap_file_open
  dsimp only
  split
  · left; exact ⟨rfl, rfl⟩
  · split
    · left; exact ⟨rfl, rfl⟩
    · split
      · rename_i w2 heq
        have hw := sys_mmap_none _ _ _ _ _ _ _ heq
        subst hw
        left; exact ⟨rfl, rfl⟩
      · rename_i a w2 heq
        have hs := sys_mmap_some _ _ _ _ _ _ _ _ heq
        right
        refine ⟨a, rfl, ?_⟩
        rw [hs.2, hs.1]
        simp [findMap]

/-- Every control path of the Windows open either returns the zeroed
handle and leaves the world unchanged, or returns a handle whose `data`
points at an active view. -/
theorem win_open_cases (w : WinWorld) (fn : String) (ro : Int) :
    ((Dmmap.Win.dmmap_file_open w fn ro).1 = zeroHandle ∧
     (Dmmap.Win.dmmap_file_open w fn ro).2.1 = w) ∨
    (∃ a, (Dmmap.Win.dmmap_file_open w fn ro).1.data = some a ∧
       (findMapW (Dmmap.Win.dmmap_file_open w fn ro).2.1 a).isSome) := by
  unfold Dmmap.Win.dmmap_file_open
  dsimp only
  split
  · left; exact ⟨rfl, rfl⟩
  · split
    · left; exact ⟨rfl, rfl⟩
    · split
      · rename_i w2 heq
        have hw := sys_MapViewOfFile_none _ _ _ _ _ heq
        subst hw
        left; exact ⟨rfl, rfl⟩
      · rename_i a w2 heq
        have hs := sys_MapViewOfFile_some _ _ _ _ _ _ heq
        right
        refine ⟨a, rfl, ?_⟩
        rw [hs.2, hs.1]
        simp [findMapW]

/-- A nonexistent path makes the POSIX open return the zero handle after a
single failed `open` call, leaving the world unchanged. -/
theorem posix_open_missing (w : PosixWorld) (fn : String) (ro : Int)
    (h : pathIndex w.files fn = none) :
    Dmmap.Posix.dmmap_file_open w fn ro =
      (zeroHandle, w, [.openEv fn (if ro ≠ 0 then O_RDONLY else O_RDWR)]) := by
  have ho : sys_open w fn (if ro ≠ 0 then O_RDONLY else O_RDWR) = none := by
    simp [sys_open, h]
  simp only [Dmmap.Posix.dmmap_file_open, ho]
  rfl

/-- A nonexistent path makes the Windows open return the zero handle after
a single failed `CreateFileA` call, leaving the world unchanged. -/
theorem win_open_missing (w : WinWorld) (fn : String) (ro : Int)
    (h : pathIndexW w.files fn = none) :
    Dmmap.Win.dmmap_file_open w fn ro =
      (zeroHandle, w,
       [.createFileEv fn (if ro ≠ 0 then GENERIC_READ else GENERIC_READ ||| GENERIC_WRITE)
          0 OPEN_EXISTING FILE_ATTRIBUTE_NORMAL]) := by
  have hc : sys_CreateFileA w fn
      (if ro ≠ 0 then GENERIC_READ else GENERIC_READ ||| GENERIC_WRITE) = none := by
    simp [sys_CreateFileA, h]
  simp only [Dmmap.Win.dmmap_file_open, hc]
  rfl

/-- C2: on every input where `dmmap_file_open` fails — at the open,
metadata or mapping step, on either platform — the returned handle is the
identical fully zeroed value (null data, zero size, zero platform handle),
with no distinguishing error code; a nonexistent path in particular yields
exactly the zero handle, and the result is populated only on full
success. -/
theorem c2_failure_collapse (wp : PosixWorld) (ww : WinWorld) (fn : String) (ro : Int) :
    ((Dmmap.Posix.dmmap_file_open wp fn ro).1.data = none →
       (Dmmap.Posix.dmmap_file_open wp fn ro).1 = zeroHandle) ∧
    ((Dmmap.Win.dmmap_file_open ww fn ro).1.data = none →
       (Dmmap.Win.dmmap_file_open ww fn ro).1 = zeroHandle) ∧
    (pathIndex wp.files fn = none →
       Dmmap.Posix.dmmap_file_open wp fn ro =
         (zeroHandle, wp, [.openEv fn (if ro ≠ 0 then O_RDONLY else O_RDWR)])) ∧
    (pathIndexW ww.files fn = none →
       Dmmap.Win.dmmap_file_open ww fn ro =
         (zeroHandle, ww,
          [.createFileEv fn (if ro ≠ 0 then GENERIC_READ else GENERIC_READ ||| GENERIC_WRITE)
             0 OPEN_EXISTING FILE_ATTRIBUTE_NORMAL])) := by
  refine ⟨?_, ?_, posix_open_missing wp fn ro, win_open_missing ww fn ro⟩
  · intro hd
    rcases posix_open_cases wp fn ro with ⟨h1, _⟩ | ⟨a, ha, _⟩
    · exact h1
    · rw [ha] at hd
      exact absurd hd (Option.some_ne_none a)
  · intro hd
    rcases win_open_cases ww fn ro with ⟨h1, _⟩ | ⟨a, ha, _⟩
    · exact h1
    · rw [ha] at hd
      exact absurd hd (Option.some_ne_none a)

/-- Witness for C2 at the nonexistent path "nope" in empty worlds. -/
theorem c2_failure_collapse_witness :
    ((Dmmap.Posix.dmmap_file_open emptyPosixWorld "nope" 1).1 = zeroHandle) ∧
    ((Dmmap.Win.dmmap_file_open emptyWinWorld "nope" 1).1 = zeroHandle) ∧
    (Dmmap.Posix.dmmap_file_open emptyPosixWorld "nope" 1 =
       (zeroHandle, emptyPosixWorld, [.openEv "nope" O_RDONLY])) ∧
    (Dmmap.Win.dmmap_file_open emptyWinWorld "nope" 1 =
       (zeroHandle, emptyWinWorld,
        [.createFileEv "nope" GENERIC_READ 0 OPEN_EXISTING FILE_ATTRIBUTE_NORMAL])) := by
  have h := c2_failure_collapse emptyPosixWorld emptyWinWorld "nope" 1
  exact ⟨h.1 rfl, h.2.1 rfl, h.2.2.1 rfl, h.2.2.2 rfl⟩

/-- C3: closing a successfully opened handle (non-null `data`) unmaps the
region, releases the platform resource, and zeroes `data`, `size` and
`fd`, on both platforms. -/
theorem c3_close_releases (wp : PosixWorld) (ww : WinWorld) (h : DmmapFile) (a : Nat)
    (hd : h.data = some a) :
    (Dmmap.Posix.dmmap_file_close wp h).1 = zeroHandle ∧
    (Dmmap.Posix.dmmap_file_close wp h).2.2 = [.munmapEv a h.size, .closeEv h.fd] ∧
    findMap (Dmmap.Posix.dmmap_file_close wp h).2.1 a = none ∧
    (Dmmap.Win.dmmap_file_close ww h).1 = zeroHandle ∧
    (Dmmap.Win.dmmap_file_close ww h).2.2 = [.unmapViewEv a, .closeHandleEv h.fd] ∧
    findMapW (Dmmap.Win.dmmap_file_close ww h).2.1 a = none := by
  obtain ⟨d, s, fd⟩ := h
  dsimp only at hd
  subst hd
  refine ⟨rfl, rfl, ?_, rfl, rfl, ?_⟩
  · simp [Dmmap.Posix.dmmap_file_close, sys_munmap, findMap, find?_filter_addr]
  · simp [Dmmap.Win.dmmap_file_close, sys_UnmapViewOfFile, findMapW, find?_filter_addr_w]

/-- Witness for C3 on the handle (5, 3, 4) in empty worlds. -/
theorem c3_close_releases_witness :
    (Dmmap.Posix.dmmap_file_close emptyPosixWorld ⟨some 5, 3, 4⟩).1 = zeroHandle ∧
    (Dmmap.Posix.dmmap_file_close emptyPosixWorld ⟨some 5, 3, 4⟩).2.2 =
      [.munmapEv 5 3, .closeEv 4] ∧
    findMap (Dmmap.Posix.dmmap_file_close emptyPosixWorld ⟨some 5, 3, 4⟩).2.1 5 = none ∧
    (Dmmap.Win.dmmap_file_close emptyWinWorld ⟨some 5, 3, 4⟩).1 = zeroHandle ∧
    (Dmmap.Win.dmmap_file_close emptyWinWorld ⟨some 5, 3, 4⟩).2.2 =
      [.unmapViewEv 5, .closeHandleEv 4] ∧
    findMapW (Dmmap.Win.dmmap_file_close emptyWinWorld ⟨some 5, 3, 4⟩).2.1 5 = none :=
  c3_close_releases emptyPosixWorld emptyWinWorld ⟨some 5, 3, 4⟩ 5 rfl

/-- C4: `dmmap_file_close` is idempotent — a second close right after a
first one returns the same handle and world and performs no OS call, on
both platforms. -/
theorem c4_close_idempotent (wp : PosixWorld) (ww : WinWorld) (h : DmmapFile) :
    (Dmmap.Posix.dmmap_file_close (Dmmap.Posix.dmmap_file_close wp h).2.1
       (Dmmap.Posix.dmmap_file_close wp h).1 =
     ((Dmmap.Posix.dmmap_file_close wp h).1, (Dmmap.Posix.dmmap_file_close wp h).2.1, [])) ∧
    (Dmmap.Win.dmmap_file_close (Dmmap.Win.dmmap_file_close ww h).2.1
       (Dmmap.Win.dmmap_file_close ww h).1 =
     ((Dmmap.Win.dmmap_file_close ww h).1, (Dmmap.Win.dmmap_file_close ww h).2.1, [])) := by
  obtain ⟨d, s, fd⟩ := h
  cases d <;> exact ⟨rfl, rfl⟩

/-- C5: the POSIX branch handles a metadata (`fstat`) failure by closing
the descriptor and returning the zero handle, but the Windows branch never
checks `GetFileSize`: on its failure the code continues, passes the
in-band failure value INVALID_FILE_SIZE to `CreateFileMapping`, and can
return a populated handle of size 4294967295. -/
theorem c5_metadata_failure_divergence :
    (Dmmap.Posix.dmmap_file_open c5PosixWorld "f.bin" 1 =
       (zeroHandle, c5PosixWorld, [.openEv "f.bin" O_RDONLY, .fstatEv 3, .closeEv 3])) ∧
    ((Dmmap.Win.dmmap_file_open c5WinWorld "f.bin" 1).1 =
       ⟨some (viewAddrOf 1100), INVALID_FILE_SIZE, 1100⟩) ∧
    ((Dmmap.Win.dmmap_file_open c5WinWorld "f.bin" 1).2.2 =
       [.createFileEv "f.bin" GENERIC_READ 0 OPEN_EXISTING FILE_ATTRIBUTE_NORMAL,
        .getFileSizeEv 100,
        .createFileMappingEv 100 PAGE_READONLY 0 INVALID_FILE_SIZE,
        .mapViewEv 1100 FILE_MAP_READ 0 0 INVALID_FILE_SIZE,
        .closeHandleEv 100]) := by
  refine ⟨?_, ?_, ?_⟩ <;> rfl

/-- C8: the two header files ship behaviorally identical implementations:
on each platform branch, open and close of deza_mmap.h are the same
functions as those of dmmap.h — same results, same worlds, same sequence
of OS calls on every input. -/
theorem c8_impl_equivalence :
    DezaMmap.Posix.dmmap_file_open = Dmmap.Posix.dmmap_file_open ∧
    DezaMmap.Posix.dmmap_file_close = Dmmap.Posix.dmmap_file_close ∧
    DezaMmap.Win.dmmap_file_open = Dmmap.Win.dmmap_file_open ∧
    DezaMmap.Win.dmmap_file_close = Dmmap.Win.dmmap_file_close :=
  ⟨rfl, rfl, rfl, rfl⟩

/-- C9: the Windows branch stores the size as the 32-bit value returned by
`GetFileSize` with a null high-order output: under normal operation the
stored size is the true size modulo 2^32, hence at most 2^32 - 1, and a
file of 4 GiB or larger is silently mis-sized; concretely, a file of
2^32 + 5 bytes opens with stored size 5. -/
theorem c9_win_size_truncation (w : WinWorld) (filename nm : String) (i sz : Nat) (ro : Int)
    (hCF : w.createFileFail = false) (hGFS : w.getFileSizeFail = false)
    (hCFM : w.createFileMappingFail = false) (hMV : w.mapViewFail = false)
    (hFind : pathIndexW w.files filename = some i)
    (hGet : w.files[i]? = some (nm, sz)) (hNZ : sz % 4294967296 ≠ 0) :
    ((Dmmap.Win.dmmap_file_open w filename ro).1.size = sz % 4294967296 ∧
     (Dmmap.Win.dmmap_file_open w filename ro).1.size ≤ 4294967295 ∧
     (4294967296 ≤ sz → (Dmmap.Win.dmmap_file_open w filename ro).1.size ≠ sz)) ∧
    (Dmmap.Win.dmmap_file_open c9WinWorld "big.bin" 1).1.size = 5 ∧
    (Dmmap.Win.dmmap_file_open c9WinWorld "big.bin" 1).1.size ≠ 4294967301 := by
  refine ⟨?_, rfl, by decide⟩
  rw [win_open_success w filename nm i sz ro hCF hGFS hCFM hMV hFind hGet hNZ]
  dsimp only
  refine ⟨rfl, ?_, ?_⟩
  · have := Nat.mod_lt sz (show 0 < 4294967296 by norm_num)
    omega
  · intro hbig
    have := Nat.mod_lt sz (show 0 < 4294967296 by norm_num)
    omega

/-- Witness for C9 on the 2^32 + 5 byte file. -/
theorem c9_win_size_truncation_witness :
    ((Dmmap.Win.dmmap_file_open c9WinWorld "big.bin" 1).1.size = 4294967301 % 4294967296 ∧
     (Dmmap.Win.dmmap_file_open c9WinWorld "big.bin" 1).1.size ≤ 4294967295 ∧
     (4294967296 ≤ 4294967301 → (Dmmap.Win.dmmap_file_open c9WinWorld "big.bin" 1).1.size ≠ 4294967301)) ∧
    (Dmmap.Win.dmmap_file_open c9WinWorld "big.bin" 1).1.size = 5 ∧
    (Dmmap.Win.dmmap_file_open c9WinWorld "big.bin" 1).1.size ≠ 4294967301 :=
  c9_win_size_truncation c9WinWorld "big.bin" "big.bin" 0 4294967301 1
    rfl rfl rfl rfl (by decide) rfl (by decide)

/-- C10: on a handle whose `data` is null, close leaves the handle — and
the world — entirely unchanged, whatever values `size` and `fd` hold,
because the reset happens only inside the non-null branch. -/
theorem c10_close_frame (wp : PosixWorld) (ww : WinWorld) (h : DmmapFile)
    (hd : h.data = none) :
    Dmmap.Posix.dmmap_file_close wp h = (h, wp, []) ∧
    Dmmap.Win.dmmap_file_close ww h = (h, ww, []) := by
  obtain ⟨d, s, fd⟩ := h
  dsimp only at hd
  subst hd
  exact ⟨rfl, rfl⟩

/-- Witness for C10 on the null-data handle with nonzero size 7 and fd 9. -/
theorem c10_close_frame_witness :
    Dmmap.Posix.dmmap_file_close emptyPosixWorld ⟨none, 7, 9⟩ =
      (⟨none, 7, 9⟩, emptyPosixWorld, []) ∧
    Dmmap.Win.dmmap_file_close emptyWinWorld ⟨none, 7, 9⟩ =
      (⟨none, 7, 9⟩, emptyWinWorld, []) :=
  c10_close_frame emptyPosixWorld emptyWinWorld ⟨none, 7, 9⟩ rfl


/-- Reading through the mapping at the head of the map list. -/
theorem readByte_head (w : PosixWorld) (m : Mapping) (ms : List Mapping) (off : Nat)
    (bytes : List Nat) (hw : w.maps = m :: ms) (hoff : off < m.len)
    (hprot : m.prot &&& PROT_READ ≠ 0) (hfile : fileAt w m.fd = some bytes) :
    readByte w m.addr off = bytes[m.offset + off]? := by
  simp only [readByte, findMap, hw]
  rw [List.find?_cons_of_pos _ (by simp)]
  dsimp only
  rw [if_pos ⟨hoff, hprot⟩, hfile]

/-- Counterexample to C1 as frozen: the zero-length file "empty.dat"
exists and is readable, yet the read-only open returns a handle whose
`data` is null, because `mmap` with length 0 fails per POSIX. -/
theorem c1_counterexample_zero_length :
    (Dmmap.Posix.dmmap_file_open zeroLenWorld "empty.dat" 1).1.data = none := rfl

/-- C1 (amended to sizes S > 0): opening an existing readable regular
file of size S > 0 with read_only = 1, under normal OS operation, returns
a handle with non-null `data` and `size` = S, and the S bytes readable
through `data` are exactly the file's bytes. -/
theorem c1_roundtrip_read (w : PosixWorld) (filename nm : String) (i : Nat)
    (bytes : List Nat)
    (hOpen : w.openFail = false) (hStat : w.fstatFail = false)
    (hMmap : w.mmapFail = false)
    (hFind : pathIndex w.files filename = some i)
    (hGet : w.files[i]? = some (nm, bytes)) (hNe : bytes ≠ []) :
    (Dmmap.Posix.dmmap_file_open w filename 1).1.data = some (addrOf (i + fdBase)) ∧
    (Dmmap.Posix.dmmap_file_open w filename 1).1.size = bytes.length ∧
    ∀ off, off < bytes.length →
      readByte (Dmmap.Posix.dmmap_file_open w filename 1).2.1 (addrOf (i + fdBase)) off =
        bytes[off]? := by
  rw [posix_open_success w filename nm i bytes 1 hOpen hStat hMmap hFind hGet hNe]
  refine ⟨rfl, rfl, ?_⟩
  intro off hoff
  have hr := readByte_head
      { w with maps := (⟨addrOf (i + fdBase), bytes.length,
          if (1 : Int) ≠ 0 then PROT_READ else PROT_READ ||| PROT_WRITE,
          MAP_SHARED, i + fdBase, 0⟩ : Mapping) :: w.maps }
      ⟨addrOf (i + fdBase), bytes.length,
        if (1 : Int) ≠ 0 then PROT_READ else PROT_READ ||| PROT_WRITE,
        MAP_SHARED, i + fdBase, 0⟩
      w.maps off bytes rfl hoff
      (show (if (1 : Int) ≠ 0 then PROT_READ else PROT_READ ||| PROT_WRITE) &&& PROT_READ ≠ 0
        by decide)
      (fileAt_of_getElem _ i nm bytes hGet)
  simpa using hr

/-- Witness for C1 on the two-byte file "a.txt". -/
theorem c1_roundtrip_read_witness :
    (Dmmap.Posix.dmmap_file_open c1World "a.txt" 1).1.data = some (addrOf 3) ∧
    (Dmmap.Posix.dmmap_file_open c1World "a.txt" 1).1.size = 2 ∧
    ∀ off, off < 2 →
      readByte (Dmmap.Posix.dmmap_file_open c1World "a.txt" 1).2.1 (addrOf 3) off =
        [104, 105][off]? :=
  c1_roundtrip_read c1World "a.txt" "a.txt" 0 [104, 105]
    rfl rfl rfl (by decide) rfl (by decide)

/-- C7: every handle produced by open or close satisfies the invariant
that null `data` comes with zero `size` and zero platform handle; a
successful open's `data` points at an active mapping, a failed open
leaves the world (hence the set of active mappings) unchanged, and close
deactivates the handle's mapping while preserving the invariant — on both
platforms and on every control path. -/
theorem c7_handle_invariant (wp : PosixWorld) (ww : WinWorld) (fn : String) (ro : Int)
    (h : DmmapFile) (hinv : handleInv h) :
    handleInv (Dmmap.Posix.dmmap_file_open wp fn ro).1 ∧
    (∀ a, (Dmmap.Posix.dmmap_file_open wp fn ro).1.data = some a →
       (findMap (Dmmap.Posix.dmmap_file_open wp fn ro).2.1 a).isSome) ∧
    ((Dmmap.Posix.dmmap_file_open wp fn ro).1.data = none →
       (Dmmap.Posix.dmmap_file_open wp fn ro).2.1 = wp) ∧
    handleInv (Dmmap.Posix.dmmap_file_close wp h).1 ∧
    (∀ a, h.data = some a → findMap (Dmmap.Posix.dmmap_file_close wp h).2.1 a = none) ∧
    handleInv (Dmmap.Win.dmmap_file_open ww fn ro).1 ∧
    (∀ a, (Dmmap.Win.dmmap_file_open ww fn ro).1.data = some a →
       (findMapW (Dmmap.Win.dmmap_file_open ww fn ro).2.1 a).isSome) ∧
    ((Dmmap.Win.dmmap_file_open ww fn ro).1.data = none →
       (Dmmap.Win.dmmap_file_open ww fn ro).2.1 = ww) ∧
    handleInv (Dmmap.Win.dmmap_file_close ww h).1 ∧
    (∀ a, h.data = some a → findMapW (Dmmap.Win.dmmap_file_close ww h).2.1 a = none) := by
  obtain ⟨d, s, fd⟩ := h
  refine ⟨?_, ?_, ?_, ?_, ?_, ?_, ?_, ?_, ?_, ?_⟩
  · rcases posix_open_cases wp fn ro with ⟨h1, _⟩ | ⟨a, ha, _⟩
    · rw [h1]; intro _; exact ⟨rfl, rfl⟩
    · intro hd; rw [ha] at hd; exact absurd hd (Option.some_ne_none a)
  · intro a hd
    rcases posix_open_cases wp fn ro with ⟨h1, _⟩ | ⟨a0, ha, hs⟩
    · rw [h1] at hd; exact absurd hd (Option.some_ne_none a).symm.elim
    · rw [ha] at hd
      cases hd
      exact hs
  · intro hd
    rcases posix_open_cases wp fn ro with ⟨_, h2⟩ | ⟨a, ha, _⟩
    · exact h2
    · rw [ha] at hd; exact absurd hd (Option.some_ne_none a)
  · cases d with
    | none => exact hinv
    | some a => intro _; exact ⟨rfl, rfl⟩
  · intro a hd
    dsimp only at hd
    subst hd
    simp [Dmmap.Posix.dmmap_file_close, sys_munmap, findMap, find?_filter_addr]
  · rcases win_open_cases ww fn ro with ⟨h1, _⟩ | ⟨a, ha, _⟩
    · rw [h1]; intro _; exact ⟨rfl, rfl⟩
    · intro hd; rw [ha] at hd; exact absurd hd (Option.some_ne_none a)
  · intro a hd
    rcases win_open_cases ww fn ro with ⟨h1, _⟩ | ⟨a0, ha, hs⟩
    · rw [h1] at hd; exact absurd hd (Option.some_ne_none a).symm.elim
    · rw [ha] at hd
      cases hd
      exact hs
  · intro hd
    rcases win_open_cases ww fn ro with ⟨_, h2⟩ | ⟨a, ha, _⟩
    · exact h2
    · rw [ha] at hd; exact absurd hd (Option.some_ne_none a)
  · cases d with
    | none => exact hinv
    | some a => intro _; exact ⟨rfl, rfl⟩
  · intro a hd
    dsimp only at hd
    subst hd
    simp [Dmmap.Win.dmmap_file_close, sys_UnmapViewOfFile, findMapW, find?_filter_addr_w]

/-- Witness for C7 on a successful read-only open of "a.txt" and a close
of the handle (16384, 2, 3). -/
theorem c7_handle_invariant_witness :
    handleInv (Dmmap.Posix.dmmap_file_open c1World "a.txt" 1).1 ∧
    (∀ a, (Dmmap.Posix.dmmap_file_open c1World "a.txt" 1).1.data = some a →
       (findMap (Dmmap.Posix.dmmap_file_open c1World "a.txt" 1).2.1 a).isSome) ∧
    ((Dmmap.Posix.dmmap_file_open c1World "a.txt" 1).1.data = none →
       (Dmmap.Posix.dmmap_file_open c1World "a.txt" 1).2.1 = c1World) ∧
    handleInv (Dmmap.Posix.dmmap_file_close c1World ⟨some 16384, 2, 3⟩).1 ∧
    (∀ a, (⟨some 16384, 2, 3⟩ : DmmapFile).data = some a →
       findMap (Dmmap.Posix.dmmap_file_close c1World ⟨some 16384, 2, 3⟩).2.1 a = none) ∧
    handleInv (Dmmap.Win.dmmap_file_open c7WinWorld "a.txt" 1).1 ∧
    (∀ a, (Dmmap.Win.dmmap_file_open c7WinWorld "a.txt" 1).1.data = some a →
       (findMapW (Dmmap.Win.dmmap_file_open c7WinWorld "a.txt" 1).2.1 a).isSome) ∧
    ((Dmmap.Win.dmmap_file_open c7WinWorld "a.txt" 1).1.data = none →
       (Dmmap.Win.dmmap_file_open c7WinWorld "a.txt" 1).2.1 = c7WinWorld) ∧
    handleInv (Dmmap.Win.dmmap_file_close c7WinWorld ⟨some 16384, 2, 3⟩).1 ∧
    (∀ a, (⟨some 16384, 2, 3⟩ : DmmapFile).data = some a →
       findMapW (Dmmap.Win.dmmap_file_close c7WinWorld ⟨some 16384, 2, 3⟩).2.1 a = none) :=
  c7_handle_invariant c1World c7WinWorld "a.txt" 1 ⟨some 16384, 2, 3⟩
    (fun hd => absurd hd (Option.some_ne_none 16384))


/-- The spec's shared-mapping scenario: open read-write, store a byte
through the mapping, close, then an independent re-open of the same path
observes the stored byte — because the code created the mapping
MAP_SHARED, the model carries the store through to the backing file. -/
theorem posix_shared_write_scenario (w : PosixWorld) (filename nm : String)
    (i off b : Nat) (bytes : List Nat)
    (hOpen : w.openFail = false) (hStat : w.fstatFail = false) (hMmap : w.mmapFail = false)
    (hFind : pathIndex w.files filename = some i)
    (hGet : w.files[i]? = some (nm, bytes))
    (hNe : bytes ≠ []) (hoff : off < bytes.length) :
    (Dmmap.Posix.dmmap_file_open w filename 0).1.data = some (addrOf (i + fdBase)) ∧
    fileAt (writeByte (Dmmap.Posix.dmmap_file_open w filename 0).2.1
        (addrOf (i + fdBase)) off b) (i + fdBase) = some (bytes.set off b) ∧
    (Dmmap.Posix.dmmap_file_open
        (Dmmap.Posix.dmmap_file_close
          (writeByte (Dmmap.Posix.dmmap_file_open w filename 0).2.1 (addrOf (i + fdBase)) off b)
          (Dmmap.Posix.dmmap_file_open w filename 0).1).2.1
        filename 1).1.data = some (addrOf (i + fdBase)) ∧
    (Dmmap.Posix.dmmap_file_open
        (Dmmap.Posix.dmmap_file_close
          (writeByte (Dmmap.Posix.dmmap_file_open w filename 0).2.1 (addrOf (i + fdBase)) off b)
          (Dmmap.Posix.dmmap_file_open w filename 0).1).2.1
        filename 1).1.size = bytes.length ∧
    readByte (Dmmap.Posix.dmmap_file_open
        (Dmmap.Posix.dmmap_file_close
          (writeByte (Dmmap.Posix.dmmap_file_open w filename 0).2.1 (addrOf (i + fdBase)) off b)
          (Dmmap.Posix.dmmap_file_open w filename 0).1).2.1
        filename 1).2.1 (addrOf (i + fdBase)) off = some b := by
  have ho1 := posix_open_success w filename nm i bytes 0 hOpen hStat hMmap hFind hGet hNe
  norm_num at ho1
  rw [ho1]
  dsimp only
  have hwb : writeByte
      { w with maps := (⟨addrOf (i + fdBase), bytes.length, PROT_READ ||| PROT_WRITE,
          MAP_SHARED, i + fdBase, 0⟩ : Mapping) :: w.maps }
      (addrOf (i + fdBase)) off b =
      { w with
        files := updBytes i (fun bs => bs.set off b) w.files,
        maps := (⟨addrOf (i + fdBase), bytes.length, PROT_READ ||| PROT_WRITE,
          MAP_SHARED, i + fdBase, 0⟩ : Mapping) :: w.maps } := by
    simp only [writeByte, findMap]
    rw [List.find?_cons_of_pos _ (by simp)]
    dsimp only
    rw [if_pos ⟨hoff,
      (show (PROT_READ ||| PROT_WRITE) &&& PROT_WRITE ≠ 0 by decide),
      (show MAP_SHARED &&& MAP_SHARED ≠ 0 by decide)⟩]
    simp [Nat.add_sub_cancel]
  rw [hwb]
  have hfa2 : fileAt
      { w with
        files := updBytes i (fun bs => bs.set off b) w.files,
        maps := (⟨addrOf (i + fdBase), bytes.length, PROT_READ ||| PROT_WRITE,
          MAP_SHARED, i + fdBase, 0⟩ : Mapping) :: w.maps } (i + fdBase) =
      some (bytes.set off b) := by
    have h3 : i + fdBase - fdBase = i := by omega
    simp [fileAt, Nat.le_add_left, h3, getElem?_updBytes_self, hGet]
  refine ⟨rfl, hfa2, ?_⟩
  dsimp only [Dmmap.Posix.dmmap_file_close, sys_munmap]
  generalize hms : List.filter (fun m => m.addr != addrOf (i + fdBase))
      ((⟨addrOf (i + fdBase), bytes.length, PROT_READ ||| PROT_WRITE,
        MAP_SHARED, i + fdBase, 0⟩ : Mapping) :: w.maps) = ms
  have hFind3 : pathIndex (updBytes i (fun bs => bs.set off b) w.files) filename = some i := by
    rw [pathIndex_updBytes]; exact hFind
  have hGet3 : (updBytes i (fun bs => bs.set off b) w.files)[i]? =
      some (nm, bytes.set off b) := by
    rw [getElem?_updBytes_self, hGet]
    rfl
  have hNe3 : bytes.set off b ≠ [] := by
    intro hE
    have hL := congrArg List.length hE
    simp at hL
    exact hNe hL
  have ho2 := posix_open_success
      { w with
        files := updBytes i (fun bs => bs.set off b) w.files,
        maps := ms }
      filename nm i (bytes.set off b) 1 hOpen hStat hMmap hFind3 hGet3 hNe3
  norm_num at ho2
  rw [ho2]
  dsimp only
  refine ⟨rfl, by simp, ?_⟩
  have hr := readByte_head
      { w with
        files := updBytes i (fun bs => bs.set off b) w.files,
        maps := (⟨addrOf (i + fdBase), (bytes.set off b).length, PROT_READ,
            MAP_SHARED, i + fdBase, 0⟩ : Mapping) :: ms }
      ⟨addrOf (i + fdBase), (bytes.set off b).length, PROT_READ, MAP_SHARED, i + fdBase, 0⟩
      ms
      off (bytes.set off b) rfl (by simpa using hoff)
      (show PROT_READ &&& PROT_READ ≠ 0 by decide)
      (fileAt_of_getElem _ i nm (bytes.set off b) hGet3)
  simpa [List.getElem?_set_eq_of_lt b hoff] using hr


/-- Counterexample to C6 as frozen: the Windows open of the 2^32 + 5 byte
file "big.bin" succeeds, yet the view it maps (and the stored `size`)
has length 5 — the file size modulo 2^32 — not the file's size
4294967301, so the mapping does not cover the entire file. -/
theorem c6_counterexample_4gib :
    (Dmmap.Win.dmmap_file_open c9WinWorld "big.bin" 1).1.data = some (viewAddrOf 1100) ∧
    findMapW (Dmmap.Win.dmmap_file_open c9WinWorld "big.bin" 1).2.1 (viewAddrOf 1100) =
      some ⟨viewAddrOf 1100, 5, FILE_MAP_READ, 1100⟩ ∧
    c9WinWorld.files = [("big.bin", 4294967301)] ∧
    (5 : Nat) ≠ 4294967301 :=
  ⟨rfl, rfl, rfl, by decide⟩

/-- C6 (amended on the Windows length): on success the mapping starts at
offset 0 with page protection and view access matching read_only and the
shared policy — the POSIX branch maps the entire file (mmap length = the
file size, MAP_SHARED), while the Windows branch maps the stored 32-bit
size, the file size modulo 2^32, which covers the entire file exactly
when the file is smaller than 4 GiB — and the mapping is shared: a byte
stored through a read-write mapping persists to the underlying file and
is observed by a subsequent independent open of the same path. -/
theorem c6_mapping_geometry_shared (wp : PosixWorld) (ww : WinWorld)
    (filename filenameW nm nmw : String) (i iw sz off b : Nat) (bytes : List Nat) (ro : Int)
    (hOpen : wp.openFail = false) (hStat : wp.fstatFail = false) (hMmap : wp.mmapFail = false)
    (hFind : pathIndex wp.files filename = some i)
    (hGet : wp.files[i]? = some (nm, bytes)) (hNe : bytes ≠ [])
    (hoff : off < bytes.length)
    (hCF : ww.createFileFail = false) (hGFS : ww.getFileSizeFail = false)
    (hCFM : ww.createFileMappingFail = false) (hMV : ww.mapViewFail = false)
    (hFindW : pathIndexW ww.files filenameW = some iw)
    (hGetW : ww.files[iw]? = some (nmw, sz)) (hNZ : sz % 4294967296 ≠ 0) :
    ((Dmmap.Posix.dmmap_file_open wp filename ro).2.2 =
      [.openEv filename (if ro ≠ 0 then O_RDONLY else O_RDWR),
       .fstatEv (i + fdBase),
       .mmapEv bytes.length (if ro ≠ 0 then PROT_READ else PROT_READ ||| PROT_WRITE)
         MAP_SHARED (i + fdBase) 0] ∧
     (Dmmap.Posix.dmmap_file_open wp filename ro).1.size = bytes.length) ∧
    ((Dmmap.Win.dmmap_file_open ww filenameW ro).2.2 =
      [.createFileEv filenameW (if ro ≠ 0 then GENERIC_READ else GENERIC_READ ||| GENERIC_WRITE)
         0 OPEN_EXISTING FILE_ATTRIBUTE_NORMAL,
       .getFileSizeEv (iw + hBase),
       .createFileMappingEv (iw + hBase) (if ro ≠ 0 then PAGE_READONLY else PAGE_READWRITE)
         0 (sz % 4294967296),
       .mapViewEv (mapHandleOf (iw + hBase)) (if ro ≠ 0 then FILE_MAP_READ else FILE_MAP_WRITE)
         0 0 (sz % 4294967296),
       .closeHandleEv (iw + hBase)] ∧
     (Dmmap.Win.dmmap_file_open ww filenameW ro).1.size = sz % 4294967296 ∧
     (sz < 4294967296 → (Dmmap.Win.dmmap_file_open ww filenameW ro).1.size = sz)) ∧
    ((Dmmap.Posix.dmmap_file_open wp filename 0).1.data = some (addrOf (i + fdBase)) ∧
     fileAt (writeByte (Dmmap.Posix.dmmap_file_open wp filename 0).2.1
         (addrOf (i + fdBase)) off b) (i + fdBase) = some (bytes.set off b) ∧
     (Dmmap.Posix.dmmap_file_open
         (Dmmap.Posix.dmmap_file_close
           (writeByte (Dmmap.Posix.dmmap_file_open wp filename 0).2.1 (addrOf (i + fdBase)) off b)
           (Dmmap.Posix.dmmap_file_open wp filename 0).1).2.1
         filename 1).1.data = some (addrOf (i + fdBase)) ∧
     (Dmmap.Posix.dmmap_file_open
         (Dmmap.Posix.dmmap_file_close
           (writeByte (Dmmap.Posix.dmmap_file_open wp filename 0).2.1 (addrOf (i + fdBase)) off b)
           (Dmmap.Posix.dmmap_file_open wp filename 0).1).2.1
         filename 1).1.size = bytes.length ∧
     readByte (Dmmap.Posix.dmmap_file_open
         (Dmmap.Posix.dmmap_file_close
           (writeByte (Dmmap.Posix.dmmap_file_open wp filename 0).2.1 (addrOf (i + fdBase)) off b)
           (Dmmap.Posix.dmmap_file_open wp filename 0).1).2.1
         filename 1).2.1 (addrOf (i + fdBase)) off = some b) := by
  refine ⟨?_, ?_,
    posix_shared_write_scenario wp filename nm i off b bytes hOpen hStat hMmap hFind hGet hNe hoff⟩
  · rw [posix_open_success wp filename nm i bytes ro hOpen hStat hMmap hFind hGet hNe]
    exact ⟨rfl, rfl⟩
  · rw [win_open_success ww filenameW nmw iw sz ro hCF hGFS hCFM hMV hFindW hGetW hNZ]
    exact ⟨rfl, rfl, fun hlt => Nat.mod_eq_of_lt hlt⟩

/-- Witness for C6: read-only opens of "abc" (POSIX) and the 10-byte
"w.txt" (Windows, below 4 GiB so the view covers the whole file), and
the spec's concrete scenario — store 88 at offset 0 of "abc", re-open,
read 88 back. -/
theorem c6_mapping_geometry_shared_witness :
    ((Dmmap.Posix.dmmap_file_open c6World "abc" 1).2.2 =
      [.openEv "abc" O_RDONLY, .fstatEv 3,
       .mmapEv 3 PROT_READ MAP_SHARED 3 0] ∧
     (Dmmap.Posix.dmmap_file_open c6World "abc" 1).1.size = 3) ∧
    ((Dmmap.Win.dmmap_file_open c7WinWorld "w.txt" 1).2.2 =
      [.createFileEv "w.txt" GENERIC_READ 0 OPEN_EXISTING FILE_ATTRIBUTE_NORMAL,
       .getFileSizeEv 100,
       .createFileMappingEv 100 PAGE_READONLY 0 10,
       .mapViewEv 1100 FILE_MAP_READ 0 0 10,
       .closeHandleEv 100] ∧
     (Dmmap.Win.dmmap_file_open c7WinWorld "w.txt" 1).1.size = 10 ∧
     (10 < 4294967296 → (Dmmap.Win.dmmap_file_open c7WinWorld "w.txt" 1).1.size = 10)) ∧
    ((Dmmap.Posix.dmmap_file_open c6World "abc" 0).1.data = some (addrOf 3) ∧
     fileAt (writeByte (Dmmap.Posix.dmmap_file_open c6World "abc" 0).2.1
         (addrOf 3) 0 88) 3 = some [88, 98, 99] ∧
     (Dmmap.Posix.dmmap_file_open
         (Dmmap.Posix.dmmap_file_close
           (writeByte (Dmmap.Posix.dmmap_file_open c6World "abc" 0).2.1 (addrOf 3) 0 88)
           (Dmmap.Posix.dmmap_file_open c6World "abc" 0).1).2.1
         "abc" 1).1.data = some (addrOf 3) ∧
     (Dmmap.Posix.dmmap_file_open
         (Dmmap.Posix.dmmap_file_close
           (writeByte (Dmmap.Posix.dmmap_file_open c6World "abc" 0).2.1 (addrOf 3) 0 88)
           (Dmmap.Posix.dmmap_file_open c6World "abc" 0).1).2.1
         "abc" 1).1.size = 3 ∧
     readByte (Dmmap.Posix.dmmap_file_open
         (Dmmap.Posix.dmmap_file_close
           (writeByte (Dmmap.Posix.dmmap_file_open c6World "abc" 0).2.1 (addrOf 3) 0 88)
           (Dmmap.Posix.dmmap_file_open c6World "abc" 0).1).2.1
         "abc" 1).2.1 (addrOf 3) 0 = some 88) :=
  c6_mapping_geometry_shared c6World c7WinWorld "abc" "w.txt" "abc" "w.txt"
    0 0 10 0 88 [97, 98, 99] 1
    rfl rfl rfl (by decide) rfl (by decide) (by decide)
    rfl rfl rfl rfl (by decide) rfl (by decide)

end Mmap
